import Mathlib

/-!
Verification of the `scx_stats` server (`src/rust/scx_stats/src/server.rs`).

The embedding is shallow: the Rust data types and functions are translated
into executable Lean definitions.  JSON values (`serde_json::Value`) become
the inductive `JValue`; `BTreeMap`s become association lists kept sorted by
key via `btInsert` (mirroring the ordered, last-write-wins semantics of
`BTreeMap::insert`); `anyhow::Error` values become `ScxError`, recording the
root error message and the `ScxStatsErrno` context when one is attached;
fallible Rust functions return `Except`.  A stat producer
(`Box<dyn FnMut(&BTreeMap<String,String>) -> Result<Value>>` behind
`Arc<Mutex<..>>`) is modelled as a `StatProducer`: an explicit internal
state together with a state-passing fetch function; mutation through the
mutex becomes writing the produced state back into the registry.
Socket I/O is modelled by feeding `serve` the per-read events of one
connection; the filesystem side of `launch` is modelled by an explicit
association of paths to entries.
-/

namespace ScxStats

/-- Model of `serde_json::Value`: JSON values exchanged over the protocol. -/
inductive JValue where
  | null
  | bool (b : Bool)
  | num (n : Int)
  | str (s : String)
  | arr (elems : List JValue)
  | obj (fields : List (String × JValue))

/-- Model of an `anyhow::Error` as it occurs in this server: `msg` is the
root error's rendering, `errno` is the payload of the `ScxStatsErrno`
context when one is attached to the chain (`downcast_ref::<ScxStatsErrno>`). -/
structure ScxError where
  msg : String
  errno : Option Int
deriving DecidableEq

/-- Model of `Result<α, anyhow::Error>`. -/
abbrev SResult (α : Type) := Except ScxError α

/-- Model of `ScxStatsRequest`: wire request with command string and
string-to-string argument map (`BTreeMap<String, String>`). -/
structure ScxStatsRequest where
  req : String
  args : List (String × String)
deriving DecidableEq

/-- Model of `ScxStatsResponse`: `errno` plus an args map whose only
populated key is `"resp"`. -/
structure ScxStatsResponse where
  errno : Int
  args : List (String × JValue)

/-- Modelled from the spec: `ScxStatsMeta` (defined in the crate outside
`server.rs`) is an opaque metadata descriptor carrying a `name` field (used
as the registry key by `add_stats_meta`) and an otherwise opaque
JSON-serializable payload; `toJson` is its serde serialization. -/
structure ScxStatsMeta where
  name : String
  toJson : JValue

/-- Model of one entry of `StatMap`: the closure behind
`Arc<Mutex<Box<dyn FnMut(&BTreeMap<String,String>) -> Result<Value>>>>`.
`state` is the closure's captured mutable state (type `σ`), `fetch` runs the
closure: given the current state and the request args it yields the
`Result` and the updated state.  Invoking it under the mutex is modelled by
writing the updated state back into the registry. -/
structure StatProducer (σ : Type) where
  state : σ
  fetch : σ → List (String × String) → SResult JValue × σ

/-- Model of `ScxStatsServerData`: the registry shared with connection
handlers (`stats_meta` and `stats` maps of `BTreeMap` ordering). -/
structure ScxStatsServerData (σ : Type) where
  stats_meta : List (String × ScxStatsMeta)
  stats : List (String × StatProducer σ)

/-- Association-list lookup, the model of `BTreeMap::get`. -/
def alookup (k : String) : List (String × α) → Option α
  | [] => none
  | (k', v) :: rest => if k = k' then some v else alookup k rest

/-- Model of `BTreeMap::insert`: keeps the list sorted by key and replaces
an existing binding of the same key (last write wins). -/
def btInsert (k : String) (v : α) : List (String × α) → List (String × α)
  | [] => [(k, v)]
  | (k', v') :: rest =>
    if k < k' then (k, v) :: (k', v') :: rest
    else if k = k' then (k, v) :: rest
    else (k', v') :: btInsert k v rest

/-- Write an invoked producer's updated closure state back into the
registry (the effect of the `FnMut` call through the entry's mutex). -/
def setState (k : String) (s : σ) : List (String × StatProducer σ) → List (String × StatProducer σ)
  | [] => []
  | (k', p) :: rest =>
    if k = k' then (k', ⟨s, p.fetch⟩) :: rest
    else (k', p) :: setState k s rest

/-- The `libc::EINVAL` error code. -/
def EINVAL : Int := 22

/-- Model of Rust `Debug` formatting of a string (`{:?}`): quoted. -/
def strDebug (s : String) : String := "\"" ++ s ++ "\""

/-- Model of Rust `Debug` formatting of the request's args map. -/
def argsDebug (args : List (String × String)) : String :=
  "\x7b" ++ String.intercalate ", " (args.map fun kv => strDebug kv.1 ++ ": " ++ strDebug kv.2) ++ "\x7d"

/-- Model of Rust derived `Debug` formatting of a `ScxStatsRequest`. -/
def reqDebug (r : ScxStatsRequest) : String :=
  "ScxStatsRequest \x7b req: " ++ strDebug r.req ++ ", args: " ++ argsDebug r.args ++ " \x7d"

/-- Model of `format!("{:?}", e)` on the `anyhow::Error` chain: when a
`ScxStatsErrno` context is attached its `Display` (the OS error rendering
of the code) comes first, followed by the root cause; otherwise just the
root message. -/
def anyhowDebug (e : ScxError) : String :=
  match e.errno with
  | some c => "os error " ++ toString c ++ "\n\nCaused by:\n    " ++ e.msg
  | none => e.msg

/-- Model of `ScxStatsServerInner::build_resp`: a response whose args map
binds exactly `"resp"`.  (`serde_json::to_value` on an already materialized
`JValue` payload cannot fail, so the `Result` wrapper is dropped.) -/
def build_resp (errno : Int) (resp : JValue) : ScxStatsResponse :=
  ⟨errno, [("resp", resp)]⟩

/-- Serde serialization of the `stats_meta` map (a `BTreeMap` serializes as
a JSON object in key order). -/
def metaMapToJson (m : List (String × ScxStatsMeta)) : JValue :=
  .obj (m.map fun kv => (kv.1, kv.2.toJson))

/-- Result of `ScxStatsServerInner::handle_request`: the `Result<Response>`
returned to `serve`, the registry after the call (producer closure states
may have advanced), and — as ghost instrumentation — the names of the
producers invoked during the call. -/
structure HandleOut (σ : Type) where
  result : SResult ScxStatsResponse
  data : ScxStatsServerData σ
  invoked : List String

/-- Model of `ScxStatsServerInner::handle_request`.  The argument is the
outcome of `serde_json::from_str` on the received line (`.error m` when the
line does not decode to a request, with `m` the serde error message — such
an error carries no `ScxStatsErrno` context). -/
def handle_request (decoded : Except String ScxStatsRequest) (data : ScxStatsServerData σ) :
    HandleOut σ :=
  match decoded with
  | .error m => ⟨.error ⟨m, none⟩, data, []⟩
  | .ok req =>
    match req.req with
    | "stats" =>
      let target := (alookup "target" req.args).getD "top"
      match alookup target data.stats with
      | none => ⟨.error ⟨"unknown stat target " ++ reqDebug req, some EINVAL⟩, data, []⟩
      | some handler =>
        match handler.fetch handler.state req.args with
        | (.ok v, s') =>
          ⟨.ok (build_resp 0 v), ⟨data.stats_meta, setState target s' data.stats⟩, [target]⟩
        | (.error e, s') =>
          ⟨.error e, ⟨data.stats_meta, setState target s' data.stats⟩, [target]⟩
    | "stats_meta" => ⟨.ok (build_resp 0 (metaMapToJson data.stats_meta)), data, []⟩
    | r => ⟨.error ⟨"unknown command " ++ strDebug r, some EINVAL⟩, data, []⟩

/-- The errno `serve` writes into an error response: the attached
`ScxStatsErrno` when present and nonzero, `EINVAL` otherwise
(`match e.downcast_ref::<ScxStatsErrno>() { Some(e) if e.0 != 0 => e.0, _ => EINVAL }`). -/
def errnoOf (e : ScxError) : Int :=
  match e.errno with
  | some c => if c ≠ 0 then c else EINVAL
  | none => EINVAL

/-- The response `serve` writes back for one received line, together with
the registry afterwards: the handler's response on success, otherwise
`build_resp(errno, format!("{:?}", e))`. -/
def lineResponse (decoded : Except String ScxStatsRequest) (data : ScxStatsServerData σ) :
    ScxStatsResponse × ScxStatsServerData σ :=
  let h := handle_request decoded data
  match h.result with
  | .ok v => (v, h.data)
  | .error e => (build_resp (errnoOf e) (.str (anyhowDebug e)), h.data)

/-- One read event on a connection, as seen by `serve`: either a full line
(with the outcome of decoding it, and whether writing the response back
succeeds) or a failing `read_line`.  End of the event list is EOF
(`read_line` yields zero bytes). -/
inductive ConnEvent where
  | line (decoded : Except String ScxStatsRequest) (writeOk : Bool)
  | readErr (msg : String)

/-- Result of `ScxStatsServerInner::serve` on one connection: the responses
successfully written back, the registry when the handler stops, and the
handler's `Result<()>`. -/
structure ServeOut (σ : Type) where
  written : List ScxStatsResponse
  data : ScxStatsServerData σ
  result : Except String Unit

/-- Model of `ScxStatsServerInner::serve`: read lines until EOF, handle
each, write each response back; EOF returns `Ok(())`, a read or write
failure propagates as the connection handler's error. -/
def serve : List ConnEvent → ScxStatsServerData σ → ServeOut σ
  | [], data => ⟨[], data, .ok ()⟩
  | .readErr m :: _, data => ⟨[], data, .error m⟩
  | .line dec wOk :: rest, data =>
    let r := lineResponse dec data
    if wOk then
      let o := serve rest r.2
      ⟨r.1 :: o.written, o.data, o.result⟩
    else ⟨[], r.2, .error "write failed"⟩

/-- A filesystem path, as the list of its components (`PathBuf::join`
appends components). -/
abbrev FPath := List String

/-- What can sit at a path in the filesystem model. -/
inductive FsEntry where
  | file
  | dir
  | busyFile
  | sock
deriving DecidableEq

/-- The filesystem: an association of paths to entries. -/
abbrev Fs := List (FPath × FsEntry)

/-- Kinds of `std::io::Error` relevant to `launch`. -/
inductive IOErrorKind where
  | notFound
  | isADirectory
  | permissionDenied
  | alreadyExists
deriving DecidableEq

def fsGet (p : FPath) : Fs → Option FsEntry
  | [] => none
  | (q, e) :: rest => if p = q then some e else fsGet p rest

def fsErase (p : FPath) : Fs → Fs
  | [] => []
  | (q, e) :: rest => if p = q then fsErase p rest else (q, e) :: fsErase p rest

def fsSet (p : FPath) (e : FsEntry) (fs : Fs) : Fs := (p, e) :: fsErase p fs

/-- Model of `std::fs::remove_file`: unlinks a regular file or socket;
fails with `NotFound` when nothing is at the path, `IsADirectory` for a
directory, and `PermissionDenied` for an otherwise unremovable file. -/
def remove_file (p : FPath) (fs : Fs) : Except IOErrorKind Fs :=
  match fsGet p fs with
  | none => .error .notFound
  | some .file => .ok (fsErase p fs)
  | some .sock => .ok (fsErase p fs)
  | some .dir => .error .isADirectory
  | some .busyFile => .error .permissionDenied

/-- Every ancestor of a path (including the empty root and the path
itself), shortest first. -/
def ancestors (d : FPath) : List FPath :=
  (List.range (d.length + 1)).map (fun i => d.take i)

/-- Whether one path component can be traversed/created as a directory:
nothing there yet, or already a directory. -/
def dirOk (fs : Fs) (pre : FPath) : Bool :=
  match fsGet pre fs with
  | none => true
  | some .dir => true
  | some _ => false

/-- Model of `std::fs::create_dir_all`: succeeds iff every ancestor is
absent or already a directory, creating the missing ones. -/
def create_dir_all (d : FPath) (fs : Fs) : Except IOErrorKind Fs :=
  if (ancestors d).all (dirOk fs) then
    .ok ((ancestors d).foldl (fun acc pre => fsSet pre .dir acc) fs)
  else .error .alreadyExists

/-- Model of `UnixListener::bind`: creates a socket at the path, failing
when something is already there. -/
def bindSocket (p : FPath) (fs : Fs) : Except IOErrorKind Fs :=
  match fsGet p fs with
  | none => .ok (fsSet p .sock fs)
  | some _ => .error .alreadyExists

/-- Model of `ScxStatsServer` (the builder): path segments, optional
explicit path, and the two holders filled by `add_stats_meta`/`add_stats`. -/
structure ScxStatsServer (σ : Type) where
  base_path : FPath
  sched_path : FPath
  stats_path : FPath
  path : Option FPath
  stats_meta_holder : List (String × ScxStatsMeta)
  stats_holder : List (String × StatProducer σ)

/-- Model of `ScxStatsServer::new`. -/
def ScxStatsServer.new (σ : Type) : ScxStatsServer σ :=
  ⟨["var", "run", "scx"], ["root"], ["stats"], none, [], []⟩

/-- Model of `ScxStatsServer::add_stats_meta`: inserts under the meta's
own name. -/
def ScxStatsServer.add_stats_meta (self : ScxStatsServer σ) (meta : ScxStatsMeta) :
    ScxStatsServer σ :=
  { self with stats_meta_holder := btInsert meta.name meta self.stats_meta_holder }

/-- Model of `ScxStatsServer::add_stats`. -/
def ScxStatsServer.add_stats (self : ScxStatsServer σ) (name : String) (fetch : StatProducer σ) :
    ScxStatsServer σ :=
  { self with stats_holder := btInsert name fetch self.stats_holder }

def ScxStatsServer.set_base_path (self : ScxStatsServer σ) (p : FPath) : ScxStatsServer σ :=
  { self with base_path := p }

def ScxStatsServer.set_sched_path (self : ScxStatsServer σ) (p : FPath) : ScxStatsServer σ :=
  { self with sched_path := p }

def ScxStatsServer.set_stats_path (self : ScxStatsServer σ) (p : FPath) : ScxStatsServer σ :=
  { self with stats_path := p }

def ScxStatsServer.set_path (self : ScxStatsServer σ) (p : FPath) : ScxStatsServer σ :=
  { self with path := some p }

/-- Model of `ScxStatsServerInner` as constructed at launch: the bound
socket path and the registry handed to connection handlers. -/
structure ScxStatsServerInner (σ : Type) where
  listenerPath : FPath
  data : ScxStatsServerData σ

/-- How `launch` can fail, tagged by the step that failed. -/
inductive LaunchError where
  | mkdirFail (dir : FPath) (k : IOErrorKind)
  | unlinkFail (p : FPath) (k : IOErrorKind)
  | bindFail (p : FPath) (k : IOErrorKind)
deriving DecidableEq

/-- The socket path `launch` resolves: the explicit path when set, else
`base_path/sched_path/stats_path`. -/
def resolvedPath (self : ScxStatsServer σ) : FPath :=
  match self.path with
  | some p => p
  | none => self.base_path ++ self.sched_path ++ self.stats_path

/-- Model of `ScxStatsServer::launch`: resolve the path, create the parent
directory, remove a stale file (absence is fine, any other removal failure
is fatal), bind the socket, then move the holders into the shared registry
and return the builder (holders now empty) alongside the running server. -/
def launch (self : ScxStatsServer σ) (fs : Fs) :
    Except LaunchError (ScxStatsServer σ × ScxStatsServerInner σ × Fs) :=
  let path := resolvedPath self
  let self' : ScxStatsServer σ := { self with path := some path }
  let fs1res : Except LaunchError Fs :=
    if path = [] then .ok fs
    else
      match create_dir_all path.dropLast fs with
      | .ok fs1 => .ok fs1
      | .error k => .error (.mkdirFail path.dropLast k)
  match fs1res with
  | .error e => .error e
  | .ok fs1 =>
    let fs2res : Except LaunchError Fs :=
      match remove_file path fs1 with
      | .ok fs2 => .ok fs2
      | .error .notFound => .ok fs1
      | .error k => .error (.unlinkFail path k)
    match fs2res with
    | .error e => .error e
    | .ok fs2 =>
      match bindSocket path fs2 with
      | .error k => .error (.bindFail path k)
      | .ok fs3 =>
        .ok ({ self' with stats_meta_holder := [], stats_holder := [] },
             ⟨path, ⟨self'.stats_meta_holder, self'.stats_holder⟩⟩,
             fs3)

/-- Registering a batch of metadata entries one after the other
(chained `add_stats_meta` calls). -/
def registerMetas (metas : List ScxStatsMeta) (b : ScxStatsServer σ) : ScxStatsServer σ :=
  metas.foldl ScxStatsServer.add_stats_meta b

/-- C9 concrete builder: one registered metadata entry. -/
def c9builder : ScxStatsServer Unit :=
  (ScxStatsServer.new Unit).add_stats_meta ⟨"cpu", .null⟩

/-- C9 concrete launch output on an empty filesystem. -/
def c9out : ScxStatsServer Unit × ScxStatsServerInner Unit × Fs :=
  ({ c9builder with
      path := some ["var", "run", "scx", "root", "stats"]
      stats_meta_holder := []
      stats_holder := [] },
   ⟨["var", "run", "scx", "root", "stats"], ⟨[("cpu", ⟨"cpu", .null⟩)], []⟩⟩,
   (["var", "run", "scx", "root", "stats"], .sock)
     :: [(["var", "run", "scx", "root"], .dir), (["var", "run", "scx"], .dir),
         (["var", "run"], .dir), (["var"], .dir), ([], .dir)])

/-- C5 concrete metadata entries, in registration order. -/
def c5metas : List ScxStatsMeta := [⟨"a", .null⟩, ⟨"b", .num 2⟩]

/-- C5 concrete metadata entries, in the reverse registration order. -/
def c5metasRev : List ScxStatsMeta := [⟨"b", .num 2⟩, ⟨"a", .null⟩]

/-! ## Theorems -/

/-- Registry-preservation helper: `handle_request` never changes the
`stats_meta` map. -/
theorem handle_request_stats_meta (dec : Except String ScxStatsRequest)
    (data : ScxStatsServerData σ) :
    (handle_request dec data).data.stats_meta = data.stats_meta := by
  unfold handle_request
  split
  · rfl
  · split
    · dsimp only
      split
      · rfl
      · split <;> rfl
    · rfl
    · rfl

/-- C1: for a producer registered under name `n`, a `stats` request whose
`target` arg is `n` is answered with `errno = 0` and `"resp"` bound to
exactly the JSON value the producer returns when invoked on the request's
full args mapping (the `target` entry included). -/
theorem stats_request_returns_producer_value {σ : Type}
    (data : ScxStatsServerData σ) (req : ScxStatsRequest) (n : String)
    (p : StatProducer σ) (v : JValue) (s' : σ)
    (hreq : req.req = "stats")
    (htgt : alookup "target" req.args = some n)
    (hlook : alookup n data.stats = some p)
    (hfetch : p.fetch p.state req.args = (.ok v, s')) :
    (handle_request (.ok req) data).result = .ok ⟨0, [("resp", v)]⟩ := by
  simp only [handle_request, hreq, htgt, Option.getD_some, hlook, hfetch, build_resp]

/-- C1 witness: producer `"cpu"` returning `{"util": 42}` served at
`target = "cpu"`. -/
theorem stats_request_returns_producer_value_witness :
    (handle_request (.ok ⟨"stats", [("target", "cpu")]⟩)
      (⟨[], [("cpu", ⟨(), fun s _ => (.ok (.obj [("util", .num 42)]), s)⟩)]⟩
        : ScxStatsServerData Unit)).result
      = .ok ⟨0, [("resp", .obj [("util", .num 42)])]⟩ :=
  stats_request_returns_producer_value _ _ "cpu" _ _ () rfl rfl rfl rfl

/-- C2: a line whose decoding or dispatch fails produces an error Response
that is written back, and the connection is not terminated: the handler
proceeds to serve the remaining reads from the updated registry, so a
subsequent well-formed request on the same connection is served normally. -/
theorem failed_request_keeps_connection_open {σ : Type}
    (dec : Except String ScxStatsRequest) (data : ScxStatsServerData σ)
    (rest : List ConnEvent) (e : ScxError)
    (hfail : (handle_request dec data).result = .error e) :
    serve (.line dec true :: rest) data =
      ⟨build_resp (errnoOf e) (.str (anyhowDebug e))
         :: (serve rest (handle_request dec data).data).written,
       (serve rest (handle_request dec data).data).data,
       (serve rest (handle_request dec data).data).result⟩ := by
  simp only [serve, lineResponse, hfail, if_true]

/-- C2 witness: a malformed line followed by a well-formed `stats_meta`
request; the connection stays open, both responses are written, and the
handler ends cleanly at EOF. -/
theorem failed_request_keeps_connection_open_witness :
    serve (.line (.error "invalid json") true
            :: [ConnEvent.line (.ok ⟨"stats_meta", []⟩) true])
          (⟨[], []⟩ : ScxStatsServerData Unit)
      = ⟨[⟨22, [("resp", .str "invalid json")]⟩, ⟨0, [("resp", .obj [])]⟩],
         ⟨[], []⟩, .ok ()⟩ :=
  (failed_request_keeps_connection_open (.error "invalid json") ⟨[], []⟩
    [ConnEvent.line (.ok ⟨"stats_meta", []⟩) true] ⟨"invalid json", none⟩ rfl).trans rfl

/-- C7: when every read on the connection is a well-formed line whose
response write succeeds, reaching EOF terminates the handler cleanly with
a success result, having written exactly one response per request and
nothing further. -/
theorem eof_terminates_cleanly {σ : Type}
    (events : List ConnEvent) (data : ScxStatsServerData σ)
    (hok : ∀ ev ∈ events, ∃ d, ev = ConnEvent.line d true) :
    (serve events data).result = .ok ()
      ∧ (serve events data).written.length = events.length := by
  induction events generalizing data with
  | nil => exact ⟨rfl, rfl⟩
  | cons ev rest ih =>
    obtain ⟨d, rfl⟩ := hok ev (List.mem_cons_self _ _)
    have h' := ih ((lineResponse d data).2)
      (fun e he => hok e (List.mem_cons_of_mem _ he))
    simp only [serve, if_true, List.length_cons]
    exact ⟨h'.1, by rw [h'.2]⟩

/-- C7 witness: one successful round-trip, then EOF. -/
theorem eof_terminates_cleanly_witness :
    (serve [ConnEvent.line (.ok ⟨"stats_meta", []⟩) true]
       (⟨[], []⟩ : ScxStatsServerData Unit)).result = .ok ()
      ∧ (serve [ConnEvent.line (.ok ⟨"stats_meta", []⟩) true]
       (⟨[], []⟩ : ScxStatsServerData Unit)).written.length
        = [ConnEvent.line (.ok (⟨"stats_meta", []⟩ : ScxStatsRequest)) true].length :=
  eof_terminates_cleanly _ _ (by
    intro ev hev
    rw [List.mem_singleton] at hev
    exact ⟨_, hev⟩)

/-- C10: when handling fails before dispatch completes — the line does not
decode, the command is unknown, or a `stats` request resolves to an
unregistered target — no producer is invoked and the registry (producer
closure states included) is unchanged; the error Response is built from
the failure alone. -/
theorem failed_dispatch_invokes_no_producer {σ : Type}
    (dec : Except String ScxStatsRequest) (data : ScxStatsServerData σ)
    (hfail : match dec with
      | .error _ => True
      | .ok req => (req.req ≠ "stats" ∧ req.req ≠ "stats_meta")
          ∨ (req.req = "stats"
             ∧ alookup ((alookup "target" req.args).getD "top") data.stats = none)) :
    (handle_request dec data).invoked = []
      ∧ (handle_request dec data).data = data
      ∧ ∃ e, (handle_request dec data).result = .error e := by
  unfold handle_request
  split
  · exact ⟨rfl, rfl, _, rfl⟩
  · split
    · rcases hfail with ⟨h1, _⟩ | ⟨_, h2⟩
      · exact absurd (by assumption) h1
      · dsimp only
        split
        · exact ⟨rfl, rfl, _, rfl⟩
        · next handler heq => rw [h2] at heq; exact Option.noConfusion heq
    · rcases hfail with ⟨_, h2⟩ | ⟨h1, _⟩
      · exact absurd (by assumption) h2
      · simp_all
    · exact ⟨rfl, rfl, _, rfl⟩

/-- C10 witness: an unknown command against a populated registry leaves it
untouched and invokes nothing. -/
theorem failed_dispatch_invokes_no_producer_witness :
    (handle_request (.ok ⟨"frobnicate", []⟩)
      (⟨[], [("cpu", ⟨(), fun s _ => (.ok .null, s)⟩)]⟩
        : ScxStatsServerData Unit)).invoked = []
      ∧ (handle_request (.ok (⟨"frobnicate", []⟩ : ScxStatsRequest))
      (⟨[], [("cpu", ⟨(), fun s _ => (.ok .null, s)⟩)]⟩
        : ScxStatsServerData Unit)).data
        = (⟨[], [("cpu", ⟨(), fun s _ => (.ok .null, s)⟩)]⟩ : ScxStatsServerData Unit)
      ∧ ∃ e, (handle_request (.ok (⟨"frobnicate", []⟩ : ScxStatsRequest))
      (⟨[], [("cpu", ⟨(), fun s _ => (.ok .null, s)⟩)]⟩
        : ScxStatsServerData Unit)).result = .error e :=
  failed_dispatch_invokes_no_producer _ _ (.inl ⟨by decide, by decide⟩)

/-- Helper: a successful `handle_request` always builds its response with
`errno = 0`. -/
theorem handle_request_ok_errno (dec : Except String ScxStatsRequest)
    (data : ScxStatsServerData σ) (v : ScxStatsResponse)
    (h : (handle_request dec data).result = .ok v) : v.errno = 0 := by
  unfold handle_request at h
  split at h
  · exact Except.noConfusion h
  · split at h
    · dsimp only at h
      split at h
      · exact Except.noConfusion h
      · split at h
        · cases h; rfl
        · exact Except.noConfusion h
    · cases h; rfl
    · exact Except.noConfusion h

/-- Helper: the errno chosen for a failed request is never 0. -/
theorem errnoOf_ne_zero (e : ScxError) : errnoOf e ≠ 0 := by
  unfold errnoOf
  cases e.errno with
  | none => decide
  | some c =>
    dsimp only
    split
    · assumption
    · decide

/-- C4: a `stats` request whose resolved target (the `target` arg, or
`"top"` when absent) is unregistered, and any request whose command is
neither `"stats"` nor `"stats_meta"`, are both answered with
`errno = EINVAL` and a non-empty error description under `"resp"`. -/
theorem invalid_target_or_command_einval {σ : Type}
    (req : ScxStatsRequest) (data : ScxStatsServerData σ)
    (h : (req.req = "stats"
            ∧ alookup ((alookup "target" req.args).getD "top") data.stats = none)
       ∨ (req.req ≠ "stats" ∧ req.req ≠ "stats_meta")) :
    ∃ s : String,
      (lineResponse (.ok req) data).1 = ⟨EINVAL, [("resp", .str s)]⟩ ∧ s ≠ "" := by
  have hlen : ∀ m : String,
      anyhowDebug ⟨m, some EINVAL⟩ ≠ "" := by
    intro m hs
    have h0 := congrArg String.length hs
    rw [anyhowDebug] at h0
    simp only [String.length_append] at h0
    have h9 : (9 : Nat) ≤ "os error ".length := by decide
    have hz : "".length = 0 := rfl
    omega
  rcases h with ⟨h1, h2⟩ | ⟨h1, h2⟩
  · refine ⟨anyhowDebug ⟨"unknown stat target " ++ reqDebug req, some EINVAL⟩, ?_, hlen _⟩
    simp only [lineResponse, handle_request, h1, h2]
    rfl
  · have hh : handle_request (.ok req) data
        = ⟨.error ⟨"unknown command " ++ strDebug req.req, some EINVAL⟩, data, []⟩ := by
      simp only [handle_request, h1, h2]
    refine ⟨anyhowDebug ⟨"unknown command " ++ strDebug req.req, some EINVAL⟩, ?_, hlen _⟩
    simp only [lineResponse, hh]
    rfl

/-- C4 witness: a `stats` request with no args against an empty registry
resolves to the unregistered target `"top"` and is answered with EINVAL. -/
theorem invalid_target_or_command_einval_witness :
    (lineResponse (.ok ⟨"stats", []⟩) (⟨[], []⟩ : ScxStatsServerData Unit)).1.errno
      = EINVAL := by
  obtain ⟨s, h1, _⟩ :=
    invalid_target_or_command_einval (⟨"stats", []⟩ : ScxStatsRequest)
      (⟨[], []⟩ : ScxStatsServerData Unit) (.inl ⟨rfl, rfl⟩)
  rw [h1]

/-- C3 counterexample: a producer failure explicitly tagged with the OS
code 0 is not propagated as-is — the served response carries EINVAL (22),
not the attached 0 — refuting "its explicitly tagged OS-style error code
when one is attached (propagated as-is)" at this input. -/
theorem tagged_zero_errno_not_propagated :
    (handle_request (.ok ⟨"stats", [("target", "boom")]⟩)
      (⟨[], [("boom", ⟨(), fun s _ => (.error ⟨"producer failed", some 0⟩, s)⟩)]⟩
        : ScxStatsServerData Unit)).result = .error ⟨"producer failed", some 0⟩
    ∧ (lineResponse (.ok ⟨"stats", [("target", "boom")]⟩)
      (⟨[], [("boom", ⟨(), fun s _ => (.error ⟨"producer failed", some 0⟩, s)⟩)]⟩
        : ScxStatsServerData Unit)).1.errno = 22
    ∧ (22 : Int) ≠ 0 :=
  ⟨rfl, rfl, by decide⟩

/-- C3 amended: every per-request failure becomes a well-formed Response
whose errno is the explicitly attached OS-style code when that code is
nonzero and EINVAL otherwise (nothing attached, or attached code 0); an
error response never carries errno 0, a success response always does, and
on failure `"resp"` holds the rendered error description rather than data. -/
theorem per_request_failure_errno_mapping {σ : Type}
    (dec : Except String ScxStatsRequest) (data : ScxStatsServerData σ) :
    (∀ v, (handle_request dec data).result = .ok v →
        (lineResponse dec data).1 = v ∧ v.errno = 0)
    ∧ (∀ e, (handle_request dec data).result = .error e →
        (lineResponse dec data).1 = build_resp (errnoOf e) (.str (anyhowDebug e))
          ∧ (lineResponse dec data).1.errno ≠ 0
          ∧ (∀ c, e.errno = some c → c ≠ 0 → (lineResponse dec data).1.errno = c)
          ∧ ((e.errno = none ∨ e.errno = some 0) →
              (lineResponse dec data).1.errno = EINVAL)) := by
  cases hres : (handle_request dec data).result with
  | ok v =>
    refine ⟨fun w hw => ?_, fun e he => ?_⟩
    · cases hw
      exact ⟨by simp only [lineResponse, hres], handle_request_ok_errno dec data _ hres⟩
    · exact Except.noConfusion he
  | error e =>
    refine ⟨fun w hw => ?_, fun e' he => ?_⟩
    · exact Except.noConfusion hw
    · cases he
      have hline : (lineResponse dec data).1
          = build_resp (errnoOf e) (.str (anyhowDebug e)) := by
        simp only [lineResponse, hres]
      refine ⟨hline, ?_, ?_, ?_⟩
      · rw [hline]
        exact errnoOf_ne_zero e
      · intro c hc hcz
        rw [hline]
        show errnoOf e = c
        unfold errnoOf
        rw [hc]
        simp [hcz]
      · intro hor
        rw [hline]
        show errnoOf e = EINVAL
        unfold errnoOf
        rcases hor with h0 | h0 <;> simp [h0]

/-- C3 amended witness: an undecodable line (no attached code) is answered
with EINVAL. -/
theorem per_request_failure_errno_mapping_witness :
    (lineResponse (.error "bad line") (⟨[], []⟩ : ScxStatsServerData Unit)).1.errno
      = EINVAL :=
  ((per_request_failure_errno_mapping (.error "bad line")
      (⟨[], []⟩ : ScxStatsServerData Unit)).2
    ⟨"bad line", none⟩ rfl).2.2.2 (Or.inl rfl)

/-- Helper: looking up a different path is unaffected by `fsErase`. -/
theorem fsGet_fsErase_ne (p q : FPath) (h : p ≠ q) (fs : Fs) :
    fsGet p (fsErase q fs) = fsGet p fs := by
  induction fs with
  | nil => rfl
  | cons kv rest ih =>
    obtain ⟨r, e⟩ := kv
    by_cases hq : q = r
    · subst hq
      rw [fsErase, if_pos rfl, ih, fsGet, if_neg h]
    · rw [fsErase, if_neg hq]
      simp only [fsGet, ih]

/-- Helper: after erasing a path nothing is found at it. -/
theorem fsGet_fsErase_self (p : FPath) (fs : Fs) :
    fsGet p (fsErase p fs) = none := by
  induction fs with
  | nil => rfl
  | cons kv rest ih =>
    obtain ⟨r, e⟩ := kv
    by_cases hp : p = r
    · subst hp
      simpa [fsErase] using ih
    · simpa [fsErase, hp, fsGet] using ih

/-- Helper: looking up a different path is unaffected by `fsSet`. -/
theorem fsGet_fsSet_ne (p q : FPath) (h : p ≠ q) (e : FsEntry) (fs : Fs) :
    fsGet p (fsSet q e fs) = fsGet p fs := by
  simp only [fsSet, fsGet, if_neg h]
  exact fsGet_fsErase_ne p q h fs

/-- Helper: creating directories at other paths does not affect a lookup. -/
theorem fsGet_foldl_fsSet (ps : List FPath) (p : FPath) (h : ∀ q ∈ ps, p ≠ q) (fs : Fs) :
    fsGet p (ps.foldl (fun acc pre => fsSet pre .dir acc) fs) = fsGet p fs := by
  induction ps generalizing fs with
  | nil => rfl
  | cons q rest ih =>
    simp only [List.foldl_cons]
    rw [ih (fun r hr => h r (List.mem_cons_of_mem _ hr))]
    exact fsGet_fsSet_ne p q (h q (List.mem_cons_self _ _)) .dir fs

/-- Helper: a non-empty path is not an ancestor of its own parent. -/
theorem ne_of_mem_ancestors_dropLast (P : FPath) (hne : P ≠ []) :
    ∀ q ∈ ancestors P.dropLast, P ≠ q := by
  intro q hq
  unfold ancestors at hq
  rw [List.mem_map] at hq
  obtain ⟨i, _, rfl⟩ := hq
  intro hPq
  have h1 : (P.dropLast.take i).length ≤ P.dropLast.length := by
    rw [List.length_take]
    exact min_le_right _ _
  rw [← hPq, List.length_dropLast] at h1
  have h2 : 0 < P.length := List.length_pos.mpr hne
  omega

/-- C9: a successful launch moves every accumulated producer and metadata
entry out of the builder into the server's shared registry, and the
returned builder's own holders are left empty (the configuration is
consumed by the launch). -/
theorem launch_moves_registry {σ : Type}
    (b : ScxStatsServer σ) (fs : Fs) (b' : ScxStatsServer σ)
    (inner : ScxStatsServerInner σ) (fs' : Fs)
    (h : launch b fs = .ok (b', inner, fs')) :
    b'.stats_meta_holder = [] ∧ b'.stats_holder = []
      ∧ inner.data.stats_meta = b.stats_meta_holder
      ∧ inner.data.stats = b.stats_holder := by
  simp only [launch] at h
  split at h
  · exact Except.noConfusion h
  · split at h
    · exact Except.noConfusion h
    · split at h
      · exact Except.noConfusion h
      · cases h
        exact ⟨rfl, rfl, rfl, rfl⟩

/-- C9 witness: launching the concrete builder on an empty filesystem
moves the metadata entry into the registry and empties the holders. -/
theorem launch_moves_registry_witness :
    c9out.1.stats_meta_holder = [] ∧ c9out.1.stats_holder = []
      ∧ c9out.2.1.data.stats_meta = c9builder.stats_meta_holder
      ∧ c9out.2.1.data.stats = c9builder.stats_holder :=
  launch_moves_registry c9builder [] c9out.1 c9out.2.1 c9out.2.2 rfl

/-- C8: with a creatable parent directory, launch succeeds both when a
plain file is already at the resolved socket path (it is removed first)
and when nothing is there (absence is not an error); a removal failure
other than not-found — the path is a directory, or the file is
unremovable — fails launch at the unlink step, before binding. -/
theorem launch_stale_socket_handling {σ : Type}
    (b : ScxStatsServer σ) (fs : Fs)
    (hne : resolvedPath b ≠ [])
    (hdirs : ((ancestors (resolvedPath b).dropLast).all (dirOk fs)) = true) :
    (fsGet (resolvedPath b) fs = some .file →
      launch b fs = .ok
        ({ b with
            path := some (resolvedPath b)
            stats_meta_holder := []
            stats_holder := [] },
         ⟨resolvedPath b, ⟨b.stats_meta_holder, b.stats_holder⟩⟩,
         fsSet (resolvedPath b) .sock
           (fsErase (resolvedPath b)
             ((ancestors (resolvedPath b).dropLast).foldl
               (fun acc pre => fsSet pre .dir acc) fs))))
    ∧ (fsGet (resolvedPath b) fs = none →
      launch b fs = .ok
        ({ b with
            path := some (resolvedPath b)
            stats_meta_holder := []
            stats_holder := [] },
         ⟨resolvedPath b, ⟨b.stats_meta_holder, b.stats_holder⟩⟩,
         fsSet (resolvedPath b) .sock
           ((ancestors (resolvedPath b).dropLast).foldl
             (fun acc pre => fsSet pre .dir acc) fs)))
    ∧ (fsGet (resolvedPath b) fs = some .dir →
      launch b fs = .error (.unlinkFail (resolvedPath b) .isADirectory))
    ∧ (fsGet (resolvedPath b) fs = some .busyFile →
      launch b fs = .error (.unlinkFail (resolvedPath b) .permissionDenied)) := by
  have hmem := ne_of_mem_ancestors_dropLast (resolvedPath b) hne
  have hget : fsGet (resolvedPath b)
      ((ancestors (resolvedPath b).dropLast).foldl
        (fun acc pre => fsSet pre .dir acc) fs) = fsGet (resolvedPath b) fs :=
    fsGet_foldl_fsSet _ _ hmem fs
  refine ⟨fun hf => ?_, fun hn => ?_, fun hd => ?_, fun hb => ?_⟩
  · simp only [launch]
    rw [if_neg hne, create_dir_all, if_pos hdirs]
    dsimp only
    rw [remove_file, hget, hf]
    dsimp only
    rw [bindSocket, fsGet_fsErase_self]
  · simp only [launch]
    rw [if_neg hne, create_dir_all, if_pos hdirs]
    dsimp only
    rw [remove_file, hget, hn]
    dsimp only
    rw [bindSocket, hget, hn]
  · simp only [launch]
    rw [if_neg hne, create_dir_all, if_pos hdirs]
    dsimp only
    rw [remove_file, hget, hd]
  · simp only [launch]
    rw [if_neg hne, create_dir_all, if_pos hdirs]
    dsimp only
    rw [remove_file, hget, hb]

/-- C8 witness: a stale regular file sits at the default resolved path and
every parent is creatable; launch succeeds. -/
theorem launch_stale_socket_handling_witness :
    launch (ScxStatsServer.new Unit) [(["var", "run", "scx", "root", "stats"], .file)]
      = .ok
        ({ ScxStatsServer.new Unit with
            path := some (resolvedPath (ScxStatsServer.new Unit))
            stats_meta_holder := []
            stats_holder := [] },
         ⟨resolvedPath (ScxStatsServer.new Unit),
           ⟨(ScxStatsServer.new Unit).stats_meta_holder,
            (ScxStatsServer.new Unit).stats_holder⟩⟩,
         fsSet (resolvedPath (ScxStatsServer.new Unit)) .sock
           (fsErase (resolvedPath (ScxStatsServer.new Unit))
             ((ancestors (resolvedPath (ScxStatsServer.new Unit)).dropLast).foldl
               (fun acc pre => fsSet pre .dir acc)
               [(["var", "run", "scx", "root", "stats"], .file)]))) :=
  (launch_stale_socket_handling (ScxStatsServer.new Unit)
      [(["var", "run", "scx", "root", "stats"], .file)]
      (by decide) (by decide)).1 rfl

/-- Helper: looking up the key just inserted finds the inserted value. -/
theorem alookup_btInsert_self (k : String) (v : α) (l : List (String × α)) :
    alookup k (btInsert k v l) = some v := by
  induction l with
  | nil => simp [btInsert, alookup]
  | cons kv rest ih =>
    obtain ⟨k', v'⟩ := kv
    by_cases hlt : k < k'
    · rw [btInsert, if_pos hlt, alookup, if_pos rfl]
    · by_cases heq : k = k'
      · rw [btInsert, if_neg hlt, if_pos heq, alookup, if_pos rfl]
      · rw [btInsert, if_neg hlt, if_neg heq, alookup, if_neg heq, ih]

/-- C6 counterexample: with a producer registered under `"top"` that echoes
its `target` arg, a `stats` request with no `target` key and the same
request extended by `target = "top"` yield different `"resp"` payloads
(`null` vs `"top"`), because the producer receives the original args
mapping — refuting "same errno, same resp payload" as stated. -/
theorem no_target_not_identical_to_explicit_top :
    (handle_request (.ok ⟨"stats", []⟩)
      (⟨[], [("top", ⟨(), fun s a =>
        (.ok (match alookup "target" a with
              | some v => .str v
              | none => .null), s)⟩)]⟩ : ScxStatsServerData Unit)).result
      = .ok ⟨0, [("resp", .null)]⟩
    ∧ (handle_request (.ok ⟨"stats", [("target", "top")]⟩)
      (⟨[], [("top", ⟨(), fun s a =>
        (.ok (match alookup "target" a with
              | some v => .str v
              | none => .null), s)⟩)]⟩ : ScxStatsServerData Unit)).result
      = .ok ⟨0, [("resp", .str "top")]⟩
    ∧ JValue.null ≠ JValue.str "top" :=
  ⟨rfl, rfl, fun h => JValue.noConfusion h⟩

/-- C6 amended: a `stats` request with no `target` key resolves its target
to `"top"`: it selects exactly the producer registered under `"top"` (or
fails with the unknown-target EINVAL error when none is, the extended
request failing with the same errno), and invokes the same producer — but
on the request's original args mapping, so the full outcome coincides with
that of the request extended by `target = "top"` whenever the producer's
result is the same on both args mappings. -/
theorem stats_default_target_top {σ : Type}
    (args : List (String × String)) (data : ScxStatsServerData σ)
    (hno : alookup "target" args = none) :
    (alookup "top" data.stats = none →
       (lineResponse (.ok ⟨"stats", args⟩) data).1.errno = EINVAL
       ∧ (lineResponse (.ok ⟨"stats", btInsert "target" "top" args⟩) data).1.errno
           = EINVAL)
    ∧ (handle_request (.ok ⟨"stats", args⟩) data).invoked
        = (handle_request (.ok ⟨"stats", btInsert "target" "top" args⟩) data).invoked
    ∧ (∀ p, alookup "top" data.stats = some p →
        p.fetch p.state args = p.fetch p.state (btInsert "target" "top" args) →
        handle_request (.ok ⟨"stats", args⟩) data
          = handle_request (.ok ⟨"stats", btInsert "target" "top" args⟩) data) := by
  have htgt : alookup "target" (btInsert "target" "top" args) = some "top" :=
    alookup_btInsert_self _ _ _
  refine ⟨fun hnone => ?_, ?_, fun p hp hfe => ?_⟩
  · constructor
    · simp only [lineResponse, handle_request, hno, Option.getD_none, hnone]
      rfl
    · simp only [lineResponse, handle_request, htgt, Option.getD_some, hnone]
      rfl
  · cases hl : alookup "top" data.stats with
    | none =>
      simp only [handle_request, hno, Option.getD_none, htgt, Option.getD_some, hl]
    | some p =>
      simp only [handle_request, hno, Option.getD_none, htgt, Option.getD_some, hl]
      rcases h1 : p.fetch p.state args with ⟨r1, s1⟩
      rcases h2 : p.fetch p.state (btInsert "target" "top" args) with ⟨r2, s2⟩
      cases r1 <;> cases r2 <;> rfl
  · simp only [handle_request, hno, Option.getD_none, htgt, Option.getD_some, hp, ← hfe]

/-- C6 amended witness: with a `"top"` producer that ignores its args, the
request with no `target` key is handled identically to the one extended
with `target = "top"`. -/
theorem stats_default_target_top_witness :
    handle_request (.ok ⟨"stats", []⟩)
      (⟨[], [("top", ⟨(), fun s _ => (.ok (.num 1), s)⟩)]⟩ : ScxStatsServerData Unit)
      = handle_request (.ok ⟨"stats", btInsert "target" "top" []⟩)
      (⟨[], [("top", ⟨(), fun s _ => (.ok (.num 1), s)⟩)]⟩ : ScxStatsServerData Unit) :=
  (stats_default_target_top []
    (⟨[], [("top", ⟨(), fun s _ => (.ok (.num 1), s)⟩)]⟩ : ScxStatsServerData Unit)
    rfl).2.2 _ rfl rfl

/-- Helper: a successful lookup exhibits a member of the list. -/
theorem alookup_some_mem (n : String) (l : List (String × α)) (v : α)
    (h : alookup n l = some v) : (n, v) ∈ l := by
  induction l with
  | nil => exact Option.noConfusion h
  | cons kv rest ih =>
    obtain ⟨k, w⟩ := kv
    rw [alookup] at h
    by_cases hk : n = k
    · rw [if_pos hk] at h
      subst hk
      cases h
      exact List.mem_cons_self _ _
    · rw [if_neg hk] at h
      exact List.mem_cons_of_mem _ (ih h)

/-- Helper: a key smaller than every key of the list is not found in it. -/
theorem alookup_none_of_lt (k : String) (t : List (String × α))
    (h : ∀ x ∈ t, k < x.1) : alookup k t = none := by
  cases hl : alookup k t with
  | none => rfl
  | some v =>
    have hm := alookup_some_mem _ _ _ hl
    exact absurd (h _ hm) (lt_irrefl k)

/-- Helper: a member of `btInsert k v l` is the inserted pair or a member
of `l`. -/
theorem mem_btInsert (x : String × α) (k : String) (v : α) (l : List (String × α))
    (h : x ∈ btInsert k v l) : x = (k, v) ∨ x ∈ l := by
  induction l with
  | nil => simpa [btInsert] using h
  | cons kv rest ih =>
    obtain ⟨k', v'⟩ := kv
    rw [btInsert] at h
    by_cases h1 : k < k'
    · rw [if_pos h1] at h
      simp only [List.mem_cons] at h ⊢
      tauto
    · by_cases h2 : k = k'
      · rw [if_neg h1, if_pos h2] at h
        simp only [List.mem_cons] at h ⊢
        tauto
      · rw [if_neg h1, if_neg h2] at h
        rcases List.mem_cons.mp h with rfl | h'
        · exact .inr (List.mem_cons_self _ _)
        · rcases ih h' with h'' | h''
          · exact .inl h''
          · exact .inr (List.mem_cons_of_mem _ h'')

/-- Helper: `btInsert` preserves strict sortedness by key. -/
theorem btInsert_pairwise (k : String) (v : α) (l : List (String × α))
    (h : l.Pairwise (fun a b => a.1 < b.1)) :
    (btInsert k v l).Pairwise (fun a b => a.1 < b.1) := by
  induction l with
  | nil => simp [btInsert]
  | cons kv rest ih =>
    obtain ⟨k', v'⟩ := kv
    rw [List.pairwise_cons] at h
    obtain ⟨h1, h2⟩ := h
    by_cases hlt : k < k'
    · rw [btInsert, if_pos hlt]
      refine List.Pairwise.cons ?_ (List.Pairwise.cons h1 h2)
      intro x hx
      rcases List.mem_cons.mp hx with rfl | hx'
      · exact hlt
      · exact hlt.trans (h1 x hx')
    · by_cases heq : k = k'
      · rw [btInsert, if_neg hlt, if_pos heq]
        refine List.Pairwise.cons ?_ h2
        intro x hx
        rw [heq]
        exact h1 x hx
      · rw [btInsert, if_neg hlt, if_neg heq]
        have hgt : k' < k := by
          rcases lt_trichotomy k k' with hx | hx | hx
          · exact absurd hx hlt
          · exact absurd hx heq
          · exact hx
        refine List.Pairwise.cons ?_ (ih h2)
        intro x hx
        rcases mem_btInsert x k v rest hx with rfl | hx'
        · exact hgt
        · exact h1 x hx'

/-- Helper: strictly sorted association lists with the same lookups
everywhere are equal. -/
theorem sorted_alookup_ext : ∀ (l1 l2 : List (String × α)),
    l1.Pairwise (fun a b => a.1 < b.1) → l2.Pairwise (fun a b => a.1 < b.1) →
    (∀ n, alookup n l1 = alookup n l2) → l1 = l2 := by
  intro l1
  induction l1 with
  | nil =>
    intro l2 _ _ h
    cases l2 with
    | nil => rfl
    | cons kv t2 =>
      obtain ⟨k2, v2⟩ := kv
      have hx := h k2
      rw [alookup, alookup, if_pos rfl] at hx
      exact Option.noConfusion hx
  | cons kv t1 ih =>
    intro l2 h1 h2 h
    obtain ⟨k1, v1⟩ := kv
    cases l2 with
    | nil =>
      have hx := h k1
      rw [alookup, alookup, if_pos rfl] at hx
      exact Option.noConfusion hx
    | cons kv2 t2 =>
      obtain ⟨k2, v2⟩ := kv2
      rw [List.pairwise_cons] at h1 h2
      obtain ⟨hh1, ht1⟩ := h1
      obtain ⟨hh2, ht2⟩ := h2
      have hk : k1 = k2 := by
        by_contra hne
        have ha := h k1
        rw [alookup, if_pos rfl, alookup, if_neg hne] at ha
        have hm1 := alookup_some_mem k1 t2 v1 ha.symm
        have hgt1 : k2 < k1 := hh2 _ hm1
        have hb := h k2
        rw [alookup, if_neg (fun hc => hne hc.symm), alookup, if_pos rfl] at hb
        have hm2 := alookup_some_mem k2 t1 v2 hb
        have hgt2 : k1 < k2 := hh1 _ hm2
        exact absurd hgt2 (asymm hgt1)
      subst hk
      have hv : v1 = v2 := by
        have hx := h k1
        rw [alookup, if_pos rfl, alookup, if_pos rfl] at hx
        exact Option.some.inj hx
      subst hv
      refine congrArg _ (ih t2 ht1 ht2 ?_)
      intro n
      by_cases hn : n = k1
      · subst hn
        rw [alookup_none_of_lt n t1 hh1, alookup_none_of_lt n t2 hh2]
      · have hx := h n
        rw [alookup, if_neg hn, alookup, if_neg hn] at hx
        exact hx

/-- Helper: inserting a different key leaves a lookup unchanged. -/
theorem alookup_btInsert_ne (n k : String) (h : n ≠ k) (v : α) (l : List (String × α)) :
    alookup n (btInsert k v l) = alookup n l := by
  induction l with
  | nil => simp [btInsert, alookup, h]
  | cons kv rest ih =>
    obtain ⟨k', v'⟩ := kv
    by_cases h1 : k < k'
    · rw [btInsert, if_pos h1, alookup, if_neg h]
    · by_cases h2 : k = k'
      · subst h2
        rw [btInsert, if_neg h1, if_pos rfl, alookup, if_neg h, alookup, if_neg h]
      · rw [btInsert, if_neg h1, if_neg h2, alookup, alookup, ih]

/-- Helper: the metadata holder after chained `add_stats_meta` calls is
the fold of `btInsert` over the entries' names. -/
theorem registerMetas_holder (metas : List ScxStatsMeta) (b : ScxStatsServer σ) :
    (registerMetas metas b).stats_meta_holder
      = metas.foldl (fun acc m => btInsert m.name m acc) b.stats_meta_holder := by
  induction metas generalizing b with
  | nil => rfl
  | cons m rest ih =>
    rw [registerMetas, List.foldl_cons, List.foldl_cons]
    exact ih (b.add_stats_meta m)

/-- Helper: the registered metadata holder is strictly sorted by name. -/
theorem registerMetas_sorted (metas : List ScxStatsMeta) :
    ((registerMetas metas (ScxStatsServer.new σ)).stats_meta_holder).Pairwise
      (fun a b => a.1 < b.1) := by
  rw [registerMetas_holder]
  suffices hgen : ∀ (ms : List ScxStatsMeta) (acc : List (String × ScxStatsMeta)),
      acc.Pairwise (fun a b => a.1 < b.1) →
      (ms.foldl (fun acc m => btInsert m.name m acc) acc).Pairwise
        (fun a b => a.1 < b.1) by
    exact hgen metas [] List.Pairwise.nil
  intro ms
  induction ms with
  | nil => exact fun acc h => h
  | cons m rest ih =>
    intro acc h
    exact ih _ (btInsert_pairwise _ _ _ h)

/-- Helper: lookup in the fold of `btInsert`, names pairwise distinct:
the first (unique) entry of that name wins, else the accumulator. -/
theorem alookup_foldl_btInsert : ∀ (metas : List ScxStatsMeta)
    (acc : List (String × ScxStatsMeta)) (n : String),
    (metas.map ScxStatsMeta.name).Nodup →
    alookup n (metas.foldl (fun acc m => btInsert m.name m acc) acc)
      = match metas.find? (fun m => m.name == n) with
        | some m => some m
        | none => alookup n acc := by
  intro ms
  induction ms with
  | nil => intro acc n _; rfl
  | cons m rest ih =>
    intro acc n hnd
    rw [List.map_cons, List.nodup_cons] at hnd
    obtain ⟨hnot, hrest⟩ := hnd
    rw [List.foldl_cons, ih _ n hrest, List.find?_cons]
    by_cases hc : m.name = n
    · have hpm : (m.name == n) = true := by simp [hc]
      rw [hpm]
      have hfr : rest.find? (fun m' => m'.name == n) = none := by
        cases hfind : rest.find? (fun m' => m'.name == n) with
        | none => rfl
        | some m' =>
          have hp := List.find?_some hfind
          have hmem := List.mem_of_find?_eq_some hfind
          refine absurd ?_ hnot
          rw [List.mem_map]
          refine ⟨m', hmem, ?_⟩
          rw [hc]
          exact beq_iff_eq.mp hp
      rw [hfr, hc, alookup_btInsert_self]
    · have hpm : (m.name == n) = false := by simp [hc]
      rw [hpm]
      cases hfind : rest.find? (fun m' => m'.name == n) with
      | some m' => rfl
      | none => exact alookup_btInsert_ne n m.name (fun he => hc he.symm) m acc

/-- Helper: under distinct names, `find?` by name locates exactly the
registered entry. -/
theorem find?_name_eq_some (metas : List ScxStatsMeta) (m : ScxStatsMeta) (n : String)
    (hnodup : (metas.map ScxStatsMeta.name).Nodup) (hmem : m ∈ metas)
    (hname : m.name = n) :
    metas.find? (fun m' => m'.name == n) = some m := by
  induction metas with
  | nil => exact absurd hmem (List.not_mem_nil m)
  | cons m0 rest ih =>
    rw [List.map_cons, List.nodup_cons] at hnodup
    obtain ⟨hnot, hrest⟩ := hnodup
    rcases List.mem_cons.mp hmem with rfl | hmem'
    · have hpm : (m.name == n) = true := by simp [hname]
      rw [List.find?_cons, hpm]
    · have hpm : (m0.name == n) = false := by
        simp only [beq_eq_false_iff_ne, ne_eq]
        intro he
        apply hnot
        rw [List.mem_map]
        exact ⟨m, hmem', by rw [hname, he]⟩
      rw [List.find?_cons, hpm]
      exact ih hrest hmem'

/-- Helper: full characterization of the registered metadata map: it binds
`n` to `m` exactly when `m` was registered (under its own name `n`). -/
theorem alookup_registerMetas (σ : Type) (metas : List ScxStatsMeta)
    (hnodup : (metas.map ScxStatsMeta.name).Nodup) (n : String) (m : ScxStatsMeta) :
    alookup n (registerMetas metas (ScxStatsServer.new σ)).stats_meta_holder = some m
      ↔ (m ∈ metas ∧ m.name = n) := by
  have h0 : (ScxStatsServer.new σ).stats_meta_holder
      = ([] : List (String × ScxStatsMeta)) := rfl
  rw [registerMetas_holder, h0, alookup_foldl_btInsert metas [] n hnodup]
  constructor
  · intro h
    cases hfind : metas.find? (fun m' => m'.name == n) with
    | none =>
      rw [hfind] at h
      exact Option.noConfusion h
    | some m' =>
      rw [hfind] at h
      cases h
      have hp := List.find?_some hfind
      exact ⟨List.mem_of_find?_eq_some hfind, beq_iff_eq.mp hp⟩
  · rintro ⟨hmem, hname⟩
    rw [find?_name_eq_some metas m n hnodup hmem hname]

/-- Helper: serving one line never changes the metadata map. -/
theorem lineResponse_stats_meta (dec : Except String ScxStatsRequest)
    (data : ScxStatsServerData σ) :
    ((lineResponse dec data).2).stats_meta = data.stats_meta := by
  unfold lineResponse
  dsimp only
  split <;> exact handle_request_stats_meta dec data

/-- Helper: a whole connection's worth of requests never changes the
metadata map. -/
theorem serve_stats_meta (events : List ConnEvent) (data : ScxStatsServerData σ) :
    (serve events data).data.stats_meta = data.stats_meta := by
  induction events generalizing data with
  | nil => rfl
  | cons ev rest ih =>
    cases ev with
    | readErr m => rfl
    | line dec wOk =>
      cases wOk with
      | true =>
        simp only [serve, if_true]
        rw [ih, lineResponse_stats_meta]
      | false =>
        simp only [serve, Bool.false_eq_true, if_false]
        exact lineResponse_stats_meta dec data

/-- C5: a `stats_meta` request is answered with `errno = 0` and, as the
`"resp"` payload, exactly the map of name→descriptor pairs registered via
`add_stats_meta` — the registered holder is invariant under registration
order (for distinct names), its bindings are exactly the registered
entries (no more, no fewer), and any previously handled requests leave it
untouched. -/
theorem stats_meta_snapshot {σ : Type}
    (metas metas' : List ScxStatsMeta) (hperm : metas.Perm metas')
    (hnodup : (metas.map ScxStatsMeta.name).Nodup)
    (stats0 : List (String × StatProducer σ)) (events : List ConnEvent) :
    (registerMetas metas (ScxStatsServer.new σ)).stats_meta_holder
        = (registerMetas metas' (ScxStatsServer.new σ)).stats_meta_holder
    ∧ (handle_request (.ok ⟨"stats_meta", []⟩)
        (serve events
          ⟨(registerMetas metas (ScxStatsServer.new σ)).stats_meta_holder,
           stats0⟩).data).result
        = .ok ⟨0, [("resp",
            metaMapToJson
              (registerMetas metas (ScxStatsServer.new σ)).stats_meta_holder)]⟩
    ∧ (∀ n m,
        alookup n (registerMetas metas (ScxStatsServer.new σ)).stats_meta_holder
            = some m
          ↔ (m ∈ metas ∧ m.name = n)) := by
  have hnodup' : (metas'.map ScxStatsMeta.name).Nodup :=
    ((hperm.map _).nodup_iff).mp hnodup
  refine ⟨?_, ?_, fun n m => alookup_registerMetas σ metas hnodup n m⟩
  · apply sorted_alookup_ext _ _ (registerMetas_sorted metas)
      (registerMetas_sorted metas')
    intro n
    cases hl : alookup n
        (registerMetas metas (ScxStatsServer.new σ)).stats_meta_holder with
    | some m =>
      have hm := (alookup_registerMetas σ metas hnodup n m).mp hl
      exact ((alookup_registerMetas σ metas' hnodup' n m).mpr
        ⟨hperm.mem_iff.mp hm.1, hm.2⟩).symm
    | none =>
      cases hl' : alookup n
          (registerMetas metas' (ScxStatsServer.new σ)).stats_meta_holder with
      | none => rfl
      | some m =>
        have hm := (alookup_registerMetas σ metas' hnodup' n m).mp hl'
        have hx := (alookup_registerMetas σ metas hnodup n m).mpr
          ⟨hperm.mem_iff.mpr hm.1, hm.2⟩
        rw [hl] at hx
        exact Option.noConfusion hx
  · have hm := serve_stats_meta events
      ⟨(registerMetas metas (ScxStatsServer.new σ)).stats_meta_holder, stats0⟩
    simp only [handle_request, hm, build_resp]

/-- C5 witness: two entries registered in either order give the same
holder. -/
theorem stats_meta_snapshot_witness :
    (registerMetas c5metas (ScxStatsServer.new Unit)).stats_meta_holder
      = (registerMetas c5metasRev (ScxStatsServer.new Unit)).stats_meta_holder :=
  (stats_meta_snapshot c5metas c5metasRev
    (by unfold c5metas c5metasRev; exact List.Perm.swap _ _ _)
    (by decide) ([] : List (String × StatProducer Unit)) []).1

end ScxStats
